import Mathlib

/-!
Shallow embedding of the GreenMobilityPass trip-detection core.

Sources embedded:
* `TripState.kt` — `TripState`, `DetectedActivityType` (with `toTransportType`
  and `getEstimatedSpeedKmh`), `ActivityEvent`, `DetectedTrip`.
* `TripStateMachine.kt` (the variant with real-timestamp backdating, the one
  the spec follows) — the three state handlers, `startTrip`, `endTrip`,
  `finalizeTrip`, `findDominantActivity`, `resetState`, `reset`,
  `processActivity` (normal mode, i.e. `debugMode = false`).
* `ActivityRecognitionReceiver.kt` — the bounded FIFO admission buffer
  (`addToBuffer`) and the bounded-retry replay loop (`replayBufferedEvents`).

Modelling conventions:
* Kotlin `Long`/`Int` fields are modelled as `Int` (timestamps, confidences)
  or `Nat` (the event counters, which are only ever incremented from 0 and
  reset); no value in any claim approaches 2^31, so wrap-around is immaterial.
* Kotlin `Long / Long` and `Double.toInt()` truncate toward zero; they are
  modelled with `Int.tdiv`.
* Kotlin `Double` arithmetic for the distance estimate is modelled with exact
  rationals; `String.format("%.2f", x).toDouble()` is modelled as half-up
  rounding to 2 decimal places (`roundTo2`), the rounding Java's `%.2f` uses
  on the non-negative values that occur here.
* The state machine mutates fields of a singleton object; the embedding
  threads an explicit `TripStateMachine` record through the handlers, and the
  `onTripDetected` callback becomes an `Option DetectedTrip` return value.
-/

namespace GreenMobilityPass

/-- `TripState` from TripState.kt: states of the trip-detection machine. -/
inductive TripState where
  | IDLE
  | IN_TRIP
  | ENDED
deriving DecidableEq, Repr

/-- `DetectedActivityType` from TripState.kt. -/
inductive DetectedActivityType where
  | WALKING
  | RUNNING
  | ON_BICYCLE
  | IN_VEHICLE
  | STILL
  | UNKNOWN
deriving DecidableEq, Repr

/-- `DetectedActivityType.toTransportType()`: backend transport-type string. -/
def DetectedActivityType.toTransportType : DetectedActivityType → String
  | .WALKING | .RUNNING => "apied"
  | .ON_BICYCLE => "velo"
  | .IN_VEHICLE => "voiture"
  | .STILL | .UNKNOWN => "apied"

/-- `DetectedActivityType.getEstimatedSpeedKmh()`: speed table (km/h) used by
the distance estimate. Kotlin `Double` constants, here exact rationals. -/
def DetectedActivityType.getEstimatedSpeedKmh : DetectedActivityType → ℚ
  | .WALKING => 5
  | .RUNNING => 10
  | .ON_BICYCLE => 15
  | .IN_VEHICLE => 40
  | .STILL | .UNKNOWN => 0

/-- `ActivityEvent` from TripState.kt: one classified activity sample. -/
structure ActivityEvent where
  activityType : DetectedActivityType
  confidence : Int
  timestamp : Int
deriving DecidableEq, Repr

/-- `DetectedTrip` from TripState.kt: output of a completed trip.
`distanceKm` is a Kotlin `Double`, modelled as an exact rational. -/
structure DetectedTrip where
  timeDeparture : Int
  timeArrival : Int
  durationMinutes : Int
  distanceKm : ℚ
  transportType : String
  confidenceAvg : Int
deriving DecidableEq, Repr

/-- Companion-object constant `MIN_CONFIDENCE` of TripStateMachine.kt. -/
def MIN_CONFIDENCE : Int := 60

/-- Companion-object constant `MIN_TRIP_START_EVENTS` of TripStateMachine.kt. -/
def MIN_TRIP_START_EVENTS : Nat := 4

/-- Companion-object constant `MIN_TRIP_END_EVENTS` of TripStateMachine.kt. -/
def MIN_TRIP_END_EVENTS : Nat := 6

/-- Companion-object constant `STILL_PAUSE_TOLERANCE` of TripStateMachine.kt. -/
def STILL_PAUSE_TOLERANCE : Nat := 4

/-- The mutable fields of the `TripStateMachine` class, as one record. -/
structure TripStateMachine where
  currentState : TripState
  tripStartTime : Int
  tripEndTime : Int
  tripActivities : List ActivityEvent
  consecutiveStillEvents : Nat
  consecutiveMovingEvents : Nat
  pauseStillCount : Nat
  recentMovingEvents : List ActivityEvent
  firstStillTimestamp : Int
deriving DecidableEq, Repr

/-- The machine's initial field values (declaration-site initializers). -/
def initialMachine : TripStateMachine where
  currentState := .IDLE
  tripStartTime := 0
  tripEndTime := 0
  tripActivities := []
  consecutiveStillEvents := 0
  consecutiveMovingEvents := 0
  pauseStillCount := 0
  recentMovingEvents := []
  firstStillTimestamp := 0

/-- `isMovingActivity`: type is neither STILL nor UNKNOWN. -/
def isMovingActivity (e : ActivityEvent) : Bool :=
  e.activityType != .STILL && e.activityType != .UNKNOWN

/-- `resetState()`: clears every field except `currentState`. -/
def resetState (m : TripStateMachine) : TripStateMachine :=
  { m with
    tripActivities := []
    recentMovingEvents := []
    consecutiveStillEvents := 0
    consecutiveMovingEvents := 0
    pauseStillCount := 0
    tripStartTime := 0
    tripEndTime := 0
    firstStillTimestamp := 0 }

/-- `reset()`: force the machine back to IDLE and clear all fields. -/
def TripStateMachine.reset (m : TripStateMachine) : TripStateMachine :=
  resetState { m with currentState := .IDLE }

/-- `startTrip(event)`: enter IN_TRIP; the start time is backdated to the
first buffered moving event's real timestamp (fallback: the current event);
the buffered events seed the trip-activity log. -/
def startTrip (m : TripStateMachine) (e : ActivityEvent) : TripStateMachine :=
  let tst : Int :=
    match m.recentMovingEvents with
    | [] => e.timestamp
    | x :: _ => x.timestamp
  { m with
    currentState := .IN_TRIP
    tripStartTime := tst
    tripActivities := m.recentMovingEvents
    recentMovingEvents := []
    consecutiveStillEvents := 0
    consecutiveMovingEvents := 0
    firstStillTimestamp := 0 }

/-- `endTrip(event)`: enter ENDED; the end time is backdated to the first
STILL event's timestamp when one was recorded (fallback: current event). -/
def endTrip (m : TripStateMachine) (e : ActivityEvent) : TripStateMachine :=
  let tet : Int :=
    if 0 < m.firstStillTimestamp then m.firstStillTimestamp else e.timestamp
  { m with currentState := .ENDED, tripEndTime := tet }

/-- `handleIdleState(event)`: count consecutive qualifying moving events in a
lookback buffer capped at `MIN_TRIP_START_EVENTS`; start a trip at the
threshold; reset counter and buffer on any non-qualifying event. -/
def handleIdleState (m : TripStateMachine) (e : ActivityEvent) : TripStateMachine :=
  if isMovingActivity e ∧ MIN_CONFIDENCE ≤ e.confidence then
    let cme := m.consecutiveMovingEvents + 1
    let buf := m.recentMovingEvents ++ [e]
    let buf := if MIN_TRIP_START_EVENTS < buf.length then buf.drop 1 else buf
    let m1 := { m with consecutiveMovingEvents := cme, recentMovingEvents := buf }
    if MIN_TRIP_START_EVENTS ≤ cme then startTrip m1 e else m1
  else
    { m with consecutiveMovingEvents := 0, recentMovingEvents := [] }

/-- `handleInTripState(event)`: moving events are logged (no confidence check)
and reset the still/pause counters and the first-STILL timestamp; qualifying
STILL events increment both counters, record the first-STILL timestamp once,
are tolerated while `pauseStillCount ≤ STILL_PAUSE_TOLERANCE`, and end the
trip once `consecutiveStillEvents ≥ MIN_TRIP_END_EVENTS`. -/
def handleInTripState (m : TripStateMachine) (e : ActivityEvent) : TripStateMachine :=
  let m1 :=
    if isMovingActivity e then
      { m with
        tripActivities := m.tripActivities ++ [e]
        consecutiveStillEvents := 0
        pauseStillCount := 0
        firstStillTimestamp := 0 }
    else m
  if e.activityType = .STILL ∧ MIN_CONFIDENCE ≤ e.confidence then
    let m2 := { m1 with
      consecutiveStillEvents := m1.consecutiveStillEvents + 1
      pauseStillCount := m1.pauseStillCount + 1 }
    let m3 :=
      if m2.firstStillTimestamp = 0 then { m2 with firstStillTimestamp := e.timestamp }
      else m2
    if m3.pauseStillCount ≤ STILL_PAUSE_TOLERANCE then m3
    else if MIN_TRIP_END_EVENTS ≤ m3.consecutiveStillEvents then endTrip m3 e
    else m3
  else m1

/-- The first-occurrence key order of Kotlin's `groupingBy(..).eachCount()`
(a LinkedHashMap iterated in insertion order). -/
def firstKeys (ts : List DetectedActivityType) : List DetectedActivityType :=
  ts.foldl (fun acc t => if t ∈ acc then acc else acc ++ [t]) []

/-- Kotlin's `maxByOrNull`: the first element attaining the maximal value
(a later element replaces the champion only when strictly greater). -/
def maxByFirst (f : DetectedActivityType → Nat) :
    List DetectedActivityType → Option DetectedActivityType
  | [] => none
  | k :: ks => some (ks.foldl (fun best t => if f best < f t then t else best) k)

/-- The per-type tally `findDominantActivity` maximizes: occurrences of `t`
among the moving (non-STILL/UNKNOWN) entries of the trip-activity log.
No confidence filter is applied. -/
def movingCount (l : List ActivityEvent) (t : DetectedActivityType) : Nat :=
  ((l.filter fun e => isMovingActivity e).filter fun e => e.activityType = t).length

/-- `findDominantActivity()`: most frequent moving activity type in the
trip-activity log; WALKING when the log has no moving entry. -/
def findDominantActivity (l : List ActivityEvent) : DetectedActivityType :=
  let moving := l.filter fun e => isMovingActivity e
  match maxByFirst (movingCount l) (firstKeys (moving.map fun e => e.activityType)) with
  | none => .WALKING
  | some t => t

/-- `%.2f` formatting of a non-negative value then parsing back: half-up
rounding to 2 decimal places, as an exact rational. -/
def roundTo2 (q : ℚ) : ℚ := (⌊q * 100 + 1 / 2⌋ : ℚ) / 100

/-- `finalizeTrip()`: silently discard when the activity log is empty or the
computed duration is under 2 minutes; otherwise emit the `DetectedTrip` and
reset. Returns the machine paired with the emission (`onTripDetected`). -/
def finalizeTrip (m : TripStateMachine) : TripStateMachine × Option DetectedTrip :=
  if m.tripActivities = [] then (resetState m, none)
  else
    let durationMs := m.tripEndTime - m.tripStartTime
    let durationMinutes := durationMs.tdiv 60000
    if durationMinutes < 2 then (resetState m, none)
    else
      let dominantActivity := findDominantActivity m.tripActivities
      let avgConfidence :=
        ((m.tripActivities.map (fun e : ActivityEvent => e.confidence)).sum).tdiv
          m.tripActivities.length
      let durationHours : ℚ := (durationMinutes : ℚ) / 60
      let distanceKm := durationHours * dominantActivity.getEstimatedSpeedKmh
      let trip : DetectedTrip :=
        { timeDeparture := m.tripStartTime
          timeArrival := m.tripEndTime
          durationMinutes := durationMinutes
          distanceKm := roundTo2 distanceKm
          transportType := dominantActivity.toTransportType
          confidenceAvg := avgConfidence }
      (resetState m, some trip)

/-- `handleEndedState(event)`: finalize the ended trip, return to IDLE, and
seed the consecutive-moving counter with 1 when the triggering event itself
qualifies (it is neither buffered nor logged). -/
def handleEndedState (m : TripStateMachine) (e : ActivityEvent) :
    TripStateMachine × Option DetectedTrip :=
  let r := finalizeTrip m
  let m2 := { r.1 with currentState := TripState.IDLE }
  let m3 :=
    if isMovingActivity e ∧ MIN_CONFIDENCE ≤ e.confidence then
      { m2 with consecutiveMovingEvents := 1 }
    else m2
  (m3, r.2)

/-- `processActivity(event, debugMode = false)`: the normal-mode dispatch on
the current state (the debug bypass is dead when `debugMode` is false). -/
def processActivity (m : TripStateMachine) (e : ActivityEvent) :
    TripStateMachine × Option DetectedTrip :=
  match m.currentState with
  | .IDLE => (handleIdleState m e, none)
  | .IN_TRIP => (handleInTripState m e, none)
  | .ENDED => handleEndedState m e

/-- Feeding a sequence of events one at a time, collecting every emission. -/
def runEvents (m : TripStateMachine) : List ActivityEvent → TripStateMachine × List DetectedTrip
  | [] => (m, [])
  | e :: es =>
    let (m1, t) := processActivity m e
    let (m2, ts) := runEvents m1 es
    (m2, t.toList ++ ts)

/-! ### Admission buffer and replay (ActivityRecognitionReceiver.kt)

The receiver's FIFO of pending events is modelled as a list (head = oldest);
`ConcurrentLinkedQueue.poll` removes the head, `offer` appends at the tail.
The replay thread's `Thread.sleep(RETRY_DELAY_MS * attempt)` calls are
recorded symbolically in `waitsMs`; service availability at each attempt is
an oracle `avail : Nat → Bool`. -/

/-- `BufferedEvent` from ActivityRecognitionReceiver.kt (raw Google activity
code, confidence, arrival timestamp). -/
structure BufferedEvent where
  activityType : Int
  confidence : Int
  timestamp : Int
deriving DecidableEq, Repr

/-- Companion-object constant `MAX_BUFFER_SIZE`. -/
def MAX_BUFFER_SIZE : Nat := 5

/-- Companion-object constant `MAX_RETRY_ATTEMPTS`. -/
def MAX_RETRY_ATTEMPTS : Nat := 3

/-- Companion-object constant `RETRY_DELAY_MS`. -/
def RETRY_DELAY_MS : Nat := 500

/-- The `while (eventBuffer.size >= MAX_BUFFER_SIZE) eventBuffer.poll()` loop
of `addToBuffer`: evict oldest entries until below capacity. -/
def evictWhileFull (buf : List BufferedEvent) : List BufferedEvent :=
  if h : MAX_BUFFER_SIZE ≤ buf.length then evictWhileFull buf.tail else buf
termination_by buf.length
decreasing_by
  cases buf with
  | nil => simp [MAX_BUFFER_SIZE] at h
  | cons x xs => simp

/-- `addToBuffer(event)`: drop-oldest while at capacity, then enqueue. -/
def addToBuffer (buf : List BufferedEvent) (e : BufferedEvent) : List BufferedEvent :=
  evictWhileFull buf ++ [e]

/-- Outcome of one `replayBufferedEvents()` execution: the events delivered to
the service (in delivery order), the buffer left behind, the number of events
dropped on exhaustion, and the sleeps performed (ms, in order). -/
structure ReplayResult where
  delivered : List BufferedEvent
  buffer : List BufferedEvent
  droppedCount : Nat
  waitsMs : List Nat
deriving DecidableEq, Repr

/-- The `for (attempt in 1..MAX_RETRY_ATTEMPTS)` loop of
`replayBufferedEvents`: sleep `RETRY_DELAY_MS * attempt`, poll the service;
when available, drain the whole FIFO in order; past the last attempt, clear
the buffer and record the loss count. -/
def replayGo (avail : Nat → Bool) (buf : List BufferedEvent) (attempt : Nat) : ReplayResult :=
  if h : MAX_RETRY_ATTEMPTS < attempt then
    { delivered := [], buffer := [], droppedCount := buf.length, waitsMs := [] }
  else
    let w := RETRY_DELAY_MS * attempt
    if avail attempt then
      { delivered := buf, buffer := [], droppedCount := 0, waitsMs := [w] }
    else
      let r := replayGo avail buf (attempt + 1)
      { r with waitsMs := w :: r.waitsMs }
termination_by MAX_RETRY_ATTEMPTS + 1 - attempt
decreasing_by omega

/-- `replayBufferedEvents()`: immediate return on an empty buffer, otherwise
the retry loop starting at attempt 1. -/
def replayBufferedEvents (avail : Nat → Bool) (buf : List BufferedEvent) : ReplayResult :=
  if buf = [] then { delivered := [], buffer := buf, droppedCount := 0, waitsMs := [] }
  else replayGo avail buf 1

/-- A qualifying event: moving type at or above the confidence threshold
(the guard of `handleIdleState` and of the ENDED-state reseed). -/
def Qualifying (e : ActivityEvent) : Prop :=
  isMovingActivity e ∧ MIN_CONFIDENCE ≤ e.confidence

/-- A qualifying STILL event: the trip-end guard of `handleInTripState`. -/
def StillQ (e : ActivityEvent) : Prop :=
  e.activityType = .STILL ∧ MIN_CONFIDENCE ≤ e.confidence

instance (e : ActivityEvent) : Decidable (Qualifying e) := by
  unfold Qualifying; infer_instance

instance (e : ActivityEvent) : Decidable (StillQ e) := by
  unfold StillQ; infer_instance

/-- A reachable IN_TRIP configuration (one walking event just logged),
used to instantiate the IN_TRIP theorems on concrete inputs. -/
def exampleInTripMachine : TripStateMachine where
  currentState := .IN_TRIP
  tripStartTime := 1000
  tripEndTime := 0
  tripActivities := [⟨.WALKING, 80, 1000⟩]
  consecutiveStillEvents := 0
  consecutiveMovingEvents := 0
  pauseStillCount := 0
  recentMovingEvents := []
  firstStillTimestamp := 0

/-- A reachable ENDED configuration with a 6-minute walking trip pending,
used to instantiate the finalization theorems on concrete inputs. -/
def exampleEndedMachine : TripStateMachine where
  currentState := .ENDED
  tripStartTime := 0
  tripEndTime := 360000
  tripActivities := [⟨.WALKING, 80, 0⟩, ⟨.WALKING, 70, 30000⟩]
  consecutiveStillEvents := 6
  consecutiveMovingEvents := 0
  pauseStillCount := 6
  recentMovingEvents := []
  firstStillTimestamp := 360000

/-- An ENDED configuration with an empty trip-activity log (spurious end). -/
def exampleEmptyEndedMachine : TripStateMachine where
  currentState := .ENDED
  tripStartTime := 0
  tripEndTime := 360000
  tripActivities := []
  consecutiveStillEvents := 6
  consecutiveMovingEvents := 0
  pauseStillCount := 6
  recentMovingEvents := []
  firstStillTimestamp := 360000

/-- An ENDED configuration whose trip lasted under 2 minutes. -/
def exampleShortEndedMachine : TripStateMachine where
  currentState := .ENDED
  tripStartTime := 0
  tripEndTime := 60000
  tripActivities := [⟨.WALKING, 80, 0⟩]
  consecutiveStillEvents := 6
  consecutiveMovingEvents := 0
  pauseStillCount := 6
  recentMovingEvents := []
  firstStillTimestamp := 60000

/-- The trip `finalizeTrip` emits for `exampleEndedMachine`. -/
def exampleTrip : DetectedTrip where
  timeDeparture := 0
  timeArrival := 360000
  durationMinutes := 6
  distanceKm := roundTo2 ((6 : ℚ) / 60 * 5)
  transportType := "apied"
  confidenceAvg := 75

/-! ### Basic lemmas about the embedding -/

theorem isMovingActivity_iff (e : ActivityEvent) :
    isMovingActivity e = true ↔
      e.activityType ≠ .STILL ∧ e.activityType ≠ .UNKNOWN := by
  simp [isMovingActivity]

theorem not_still_of_moving {e : ActivityEvent} (h : isMovingActivity e = true) :
    ¬ e.activityType = .STILL :=
  ((isMovingActivity_iff e).mp h).1

theorem not_moving_of_still {e : ActivityEvent} (h : e.activityType = .STILL) :
    isMovingActivity e = false := by
  simp [isMovingActivity, h]

theorem runEvents_append (m : TripStateMachine) (xs ys : List ActivityEvent) :
    runEvents m (xs ++ ys) =
      ((runEvents (runEvents m xs).1 ys).1,
        (runEvents m xs).2 ++ (runEvents (runEvents m xs).1 ys).2) := by
  induction xs generalizing m with
  | nil => simp [runEvents]
  | cons x xs ih => simp [runEvents, ih]

theorem runEvents_nil (m : TripStateMachine) : runEvents m [] = (m, []) := rfl

theorem runEvents_cons (m : TripStateMachine) (e : ActivityEvent) (es : List ActivityEvent) :
    runEvents m (e :: es) =
      ((runEvents (processActivity m e).1 es).1,
        (processActivity m e).2.toList ++ (runEvents (processActivity m e).1 es).2) := rfl

theorem processActivity_idle (m : TripStateMachine) (e : ActivityEvent)
    (h : m.currentState = .IDLE) : processActivity m e = (handleIdleState m e, none) := by
  unfold processActivity
  rw [h]

theorem processActivity_inTrip (m : TripStateMachine) (e : ActivityEvent)
    (h : m.currentState = .IN_TRIP) : processActivity m e = (handleInTripState m e, none) := by
  unfold processActivity
  rw [h]

theorem finalizeTrip_fst (m : TripStateMachine) : (finalizeTrip m).1 = resetState m := by
  unfold finalizeTrip
  split
  · rfl
  · dsimp only
    split <;> rfl

/-- A moving event while IN_TRIP: appended to the log, counters and the
first-STILL timestamp cleared, nothing else touched. No confidence check. -/
theorem handleInTripState_moving (m : TripStateMachine) (e : ActivityEvent)
    (hm : isMovingActivity e = true) :
    handleInTripState m e =
      { m with
        tripActivities := m.tripActivities ++ [e]
        consecutiveStillEvents := 0
        pauseStillCount := 0
        firstStillTimestamp := 0 } := by
  unfold handleInTripState
  simp [hm, not_still_of_moving hm]

/-- A qualifying STILL event while both counters stand at `j` with `j + 1 ≤ 5`:
counters advance, the first-STILL timestamp is recorded once, no transition. -/
theorem handleInTripState_still (m : TripStateMachine) (e : ActivityEvent) {j : Nat}
    (hs : StillQ e) (h1 : m.consecutiveStillEvents = j) (h2 : m.pauseStillCount = j)
    (hj : j + 1 ≤ 5) :
    handleInTripState m e =
      { m with
        consecutiveStillEvents := j + 1
        pauseStillCount := j + 1
        firstStillTimestamp :=
          if m.firstStillTimestamp = 0 then e.timestamp else m.firstStillTimestamp } := by
  obtain ⟨hty, hconf⟩ := hs
  unfold handleInTripState
  simp only [not_moving_of_still hty, Bool.false_eq_true, if_false, hty, hconf, and_self, if_true,
    h1, h2, MIN_TRIP_END_EVENTS, STILL_PAUSE_TOLERANCE]
  by_cases hf : m.firstStillTimestamp = 0 <;>
    simp only [hf, if_true, if_false] <;>
    by_cases hj4 : j + 1 ≤ 4 <;>
    simp only [hj4, if_true, if_false] <;>
    first
      | rfl
      | · rw [if_neg (by omega)]

/-- A qualifying STILL event with both counters at 5: the machine transitions
to ENDED, backdating the end time to the recorded first-STILL timestamp. -/
theorem handleInTripState_still_end (m : TripStateMachine) (e : ActivityEvent)
    (hs : StillQ e) (h1 : m.consecutiveStillEvents = 5) (h2 : m.pauseStillCount = 5) :
    handleInTripState m e =
      { m with
        currentState := .ENDED
        consecutiveStillEvents := 6
        pauseStillCount := 6
        firstStillTimestamp :=
          if m.firstStillTimestamp = 0 then e.timestamp else m.firstStillTimestamp
        tripEndTime :=
          if 0 < (if m.firstStillTimestamp = 0 then e.timestamp else m.firstStillTimestamp)
          then (if m.firstStillTimestamp = 0 then e.timestamp else m.firstStillTimestamp)
          else e.timestamp } := by
  obtain ⟨hty, hconf⟩ := hs
  unfold handleInTripState endTrip
  simp only [not_moving_of_still hty, Bool.false_eq_true, if_false, hty, hconf, and_self, if_true,
    h1, h2, MIN_TRIP_END_EVENTS, STILL_PAUSE_TOLERANCE]
  by_cases hf : m.firstStillTimestamp = 0 <;>
    simp only [hf, if_true, if_false, ite_true, ite_false, eq_self_iff_true] <;>
    rw [if_neg (by omega), if_pos (by omega)]

/-- A run of qualifying STILL events starting from counter value `j` that
stays within the end threshold: the machine stays IN_TRIP, both counters
advance by the run length, and nothing is emitted. -/
theorem stillRun_state (es : List ActivityEvent) :
    ∀ (m : TripStateMachine) (j : Nat), m.currentState = .IN_TRIP →
      m.consecutiveStillEvents = j → m.pauseStillCount = j →
      (∀ e ∈ es, StillQ e) → j + es.length ≤ 5 →
      (runEvents m es).1.currentState = .IN_TRIP ∧
      (runEvents m es).1.consecutiveStillEvents = j + es.length ∧
      (runEvents m es).1.pauseStillCount = j + es.length ∧
      (runEvents m es).2 = [] := by
  induction es with
  | nil =>
    intro m j hst h1 h2 _ _
    simpa [runEvents] using ⟨hst, h1, h2⟩
  | cons e es ih =>
    intro m j hst h1 h2 hq hlen
    have hstep := handleInTripState_still m e (hq e (by simp)) h1 h2 (by simp at hlen; omega)
    obtain ⟨ha, hb, hc, hd⟩ := ih (handleInTripState m e) (j + 1)
      (by rw [hstep]; exact hst) (by rw [hstep]) (by rw [hstep])
      (fun x hx => hq x (by simp [hx])) (by simp at hlen ⊢; omega)
    simp only [runEvents, processActivity, hst, List.length_cons]
    exact ⟨ha, by omega, by omega, by simpa using hd⟩

/-- Like `stillRun_state`, but additionally: when the first-STILL timestamp is
already recorded (nonzero), the whole run leaves it untouched. -/
theorem stillRun_keep (es : List ActivityEvent) :
    ∀ (m : TripStateMachine) (j : Nat), m.currentState = .IN_TRIP →
      m.consecutiveStillEvents = j → m.pauseStillCount = j →
      (∀ e ∈ es, StillQ e) → j + es.length ≤ 5 → m.firstStillTimestamp ≠ 0 →
      (runEvents m es).1.currentState = .IN_TRIP ∧
      (runEvents m es).1.consecutiveStillEvents = j + es.length ∧
      (runEvents m es).1.pauseStillCount = j + es.length ∧
      (runEvents m es).1.firstStillTimestamp = m.firstStillTimestamp := by
  induction es with
  | nil =>
    intro m j hst h1 h2 _ _ _
    simpa [runEvents] using ⟨hst, h1, h2⟩
  | cons e es ih =>
    intro m j hst h1 h2 hq hlen hf
    have hstep := handleInTripState_still m e (hq e (by simp)) h1 h2 (by simp at hlen; omega)
    rw [if_neg hf] at hstep
    obtain ⟨ha, hb, hc, hd⟩ := ih (handleInTripState m e) (j + 1)
      (by rw [hstep]; exact hst) (by rw [hstep]) (by rw [hstep])
      (fun x hx => hq x (by simp [hx])) (by simp at hlen ⊢; omega)
      (by rw [hstep]; exact hf)
    simp only [runEvents, processActivity, hst, List.length_cons]
    refine ⟨ha, by omega, by omega, ?_⟩
    rw [hd, hstep]

/-- A run of moving events while IN_TRIP: the machine stays IN_TRIP, the
events are appended to the trip-activity log in order, the trip start time is
untouched, and nothing is emitted. -/
theorem inTripMovingRun (es : List ActivityEvent) :
    ∀ (m : TripStateMachine), m.currentState = .IN_TRIP →
      (∀ e ∈ es, isMovingActivity e = true) →
      (runEvents m es).1.currentState = .IN_TRIP ∧
      (runEvents m es).1.tripStartTime = m.tripStartTime ∧
      (runEvents m es).1.tripActivities = m.tripActivities ++ es ∧
      (runEvents m es).2 = [] := by
  induction es with
  | nil =>
    intro m hst _
    simpa [runEvents] using hst
  | cons e es ih =>
    intro m hst hq
    have hstep := handleInTripState_moving m e (hq e (by simp))
    obtain ⟨ha, hb, hc, hd⟩ := ih (handleInTripState m e)
      (by rw [hstep]; exact hst) (fun x hx => hq x (by simp [hx]))
    simp only [runEvents, processActivity, hst]
    refine ⟨ha, ?_, ?_, by simpa using hd⟩
    · rw [hb, hstep]
    · rw [hc, hstep]
      simp

/-- A qualifying event in IDLE below the start threshold: the counter
advances, the event joins the lookback buffer, nothing else changes. -/
theorem handleIdleState_qual (m : TripStateMachine) (e : ActivityEvent)
    (hq : Qualifying e) (hc : m.consecutiveMovingEvents + 1 < 4)
    (hb : m.recentMovingEvents.length + 1 ≤ 4) :
    handleIdleState m e =
      { m with
        consecutiveMovingEvents := m.consecutiveMovingEvents + 1
        recentMovingEvents := m.recentMovingEvents ++ [e] } := by
  have hq' : isMovingActivity e = true ∧ MIN_CONFIDENCE ≤ e.confidence := hq
  unfold handleIdleState
  rw [if_pos hq']
  dsimp only
  rw [if_neg (show ¬ MIN_TRIP_START_EVENTS ≤ m.consecutiveMovingEvents + 1 by
      simp only [MIN_TRIP_START_EVENTS]; omega),
    if_neg (show ¬ MIN_TRIP_START_EVENTS < (m.recentMovingEvents ++ [e]).length by
      simp only [MIN_TRIP_START_EVENTS, List.length_append, List.length_cons,
        List.length_nil]; omega)]

/-- The fourth consecutive qualifying event in IDLE: the trip starts, its
start time backdated to the head of the lookback buffer, and the buffer
(with the current event) seeds the trip-activity log. -/
theorem handleIdleState_start (m : TripStateMachine) (e b₀ : ActivityEvent)
    (b : List ActivityEvent) (hq : Qualifying e) (hc : m.consecutiveMovingEvents = 3)
    (hb : m.recentMovingEvents = b₀ :: b) (hlen : b.length ≤ 2) :
    handleIdleState m e =
      { m with
        currentState := .IN_TRIP
        tripStartTime := b₀.timestamp
        tripActivities := b₀ :: (b ++ [e])
        recentMovingEvents := []
        consecutiveStillEvents := 0
        consecutiveMovingEvents := 0
        firstStillTimestamp := 0 } := by
  have hq' : isMovingActivity e = true ∧ MIN_CONFIDENCE ≤ e.confidence := hq
  unfold handleIdleState
  rw [if_pos hq']
  dsimp only
  rw [hc, hb, if_pos (show MIN_TRIP_START_EVENTS ≤ 3 + 1 by simp [MIN_TRIP_START_EVENTS]),
    if_neg (show ¬ MIN_TRIP_START_EVENTS < ((b₀ :: b) ++ [e]).length by
      simp [MIN_TRIP_START_EVENTS]
      omega)]
  unfold startTrip
  rfl

/-- A run of qualifying events in IDLE that stays below the start threshold:
the machine stays IDLE, the counter advances by the run length, the lookback
buffer accumulates the run in order, and nothing else changes. -/
theorem idleRun (es : List ActivityEvent) :
    ∀ (m : TripStateMachine) (j : Nat), m.currentState = .IDLE →
      m.consecutiveMovingEvents = j → m.recentMovingEvents.length = j →
      (∀ e ∈ es, Qualifying e) → j + es.length ≤ 3 →
      (runEvents m es).1.currentState = .IDLE ∧
      (runEvents m es).1.consecutiveMovingEvents = j + es.length ∧
      (runEvents m es).1.recentMovingEvents = m.recentMovingEvents ++ es ∧
      (runEvents m es).2 = [] := by
  induction es with
  | nil =>
    intro m j hst h1 _ _ _
    simpa [runEvents] using ⟨hst, h1⟩
  | cons e es ih =>
    intro m j hst h1 h2 hq hlen
    have hstep := handleIdleState_qual m e (hq e (by simp))
      (by simp at hlen; omega) (by simp at hlen; omega)
    obtain ⟨ha, hb, hc, hd⟩ := ih (handleIdleState m e) (j + 1)
      (by rw [hstep]; exact hst) (by rw [hstep]; simp [h1])
      (by rw [hstep]; simp [h2])
      (fun x hx => hq x (by simp [hx])) (by simp at hlen ⊢; omega)
    simp only [runEvents, processActivity, hst, List.length_cons]
    refine ⟨ha, by omega, ?_, by simpa using hd⟩
    rw [hc, hstep]
    simp

/-- A positive duration is forced by a truncated-division quotient of 2. -/
theorem pos_of_two_le_tdiv {d : Int} (h : 2 ≤ d.tdiv 60000) : 0 < d := by
  by_contra hneg
  push_neg at hneg
  have h2 : 0 ≤ (-d).tdiv 60000 := Int.tdiv_nonneg (by omega) (by norm_num)
  rw [Int.neg_tdiv] at h2
  omega

/-! ### Claims -/

/-- C8: `reset()` is idempotent and safe in any state: two consecutive resets
equal one; one reset leaves the machine IDLE with all counters zero, the
buffers and the trip-activity log empty, and all timestamps cleared — i.e.
exactly the initial machine. -/
theorem c8_reset_idempotent (m : TripStateMachine) :
    m.reset.reset = m.reset ∧ m.reset = initialMachine ∧
    m.reset.currentState = .IDLE :=
  ⟨rfl, rfl, rfl⟩

/-- C6: admitting 7 events into the empty capacity-5 buffer retains exactly
the last 5, in their original relative order; the 2 oldest are evicted
(oldest removed before each enqueue into a full buffer). -/
theorem c6_drop_oldest (e₁ e₂ e₃ e₄ e₅ e₆ e₇ : BufferedEvent) :
    List.foldl addToBuffer [] [e₁, e₂, e₃, e₄, e₅, e₆, e₇] = [e₃, e₄, e₅, e₆, e₇] := by
  simp [addToBuffer, evictWhileFull, MAX_BUFFER_SIZE]

/-- C4: finalization resets the machine; it emits nothing when the activity
log is empty or the computed duration is under 2 minutes; and every emitted
trip satisfies `durationMinutes ≥ 2` and `timeDeparture < timeArrival`. -/
theorem c4_finalize_guards (m : TripStateMachine) :
    (finalizeTrip m).1 = resetState m ∧
    (m.tripActivities = [] → (finalizeTrip m).2 = none) ∧
    ((m.tripEndTime - m.tripStartTime).tdiv 60000 < 2 → (finalizeTrip m).2 = none) ∧
    (∀ trip, (finalizeTrip m).2 = some trip →
      2 ≤ trip.durationMinutes ∧ trip.timeDeparture < trip.timeArrival) := by
  refine ⟨finalizeTrip_fst m, ?_, ?_, ?_⟩
  · intro h
    simp [finalizeTrip, h]
  · intro h
    unfold finalizeTrip
    split
    · rfl
    · dsimp only
      rw [if_pos h]
  · intro trip htrip
    unfold finalizeTrip at htrip
    split at htrip
    · simp at htrip
    · dsimp only at htrip
      split at htrip
      · simp at htrip
      · rename_i hd
        push_neg at hd
        simp only [Option.some_inj] at htrip
        subst htrip
        refine ⟨hd, ?_⟩
        have := pos_of_two_le_tdiv hd
        dsimp only
        omega

/-- C10: while IN_TRIP, any moving event — with no confidence check — is
appended to the trip-activity log, resets the still and pause counters and
the first-STILL timestamp, and keeps the machine IN_TRIP with no emission;
it adds one to the dominant-mode tally of its type and its confidence enters
the list averaged for `confidenceAvg`. -/
theorem c10_low_confidence_movement (m : TripStateMachine) (e : ActivityEvent)
    (hst : m.currentState = .IN_TRIP) (hm : isMovingActivity e = true) :
    processActivity m e =
      ({ m with
        tripActivities := m.tripActivities ++ [e]
        consecutiveStillEvents := 0
        pauseStillCount := 0
        firstStillTimestamp := 0 }, none) ∧
    (processActivity m e).1.currentState = .IN_TRIP ∧
    movingCount (m.tripActivities ++ [e]) e.activityType =
      movingCount m.tripActivities e.activityType + 1 ∧
    ((m.tripActivities ++ [e]).map (fun x => x.confidence)).sum =
      (m.tripActivities.map (fun x => x.confidence)).sum + e.confidence := by
  have hkey : processActivity m e =
      ({ m with
        tripActivities := m.tripActivities ++ [e]
        consecutiveStillEvents := 0
        pauseStillCount := 0
        firstStillTimestamp := 0 }, none) := by
    simp only [processActivity, hst, handleInTripState_moving m e hm]
  refine ⟨hkey, by rw [hkey]; exact hst, ?_, by simp⟩
  simp [movingCount, List.filter_append, hm]

/-- C1 counterexample: the claim says that with only qualifying STILL events
and no intervening movement, the machine stays IN_TRIP until the cumulative
STILL count exceeds 4 + N_end = 10. In the code, a machine brought to IN_TRIP
by 4 qualifying WALKING events transitions to ENDED on the 6th qualifying
STILL event — a cumulative count of 6 ≤ 10. -/
theorem c1_counterexample :
    (runEvents initialMachine
      [⟨.WALKING, 80, 0⟩, ⟨.WALKING, 80, 30000⟩, ⟨.WALKING, 80, 60000⟩,
        ⟨.WALKING, 80, 90000⟩, ⟨.STILL, 90, 120000⟩, ⟨.STILL, 90, 150000⟩,
        ⟨.STILL, 90, 180000⟩, ⟨.STILL, 90, 210000⟩, ⟨.STILL, 90, 240000⟩,
        ⟨.STILL, 90, 270000⟩]).1.currentState = TripState.ENDED ∧
    (6 : Nat) ≤ STILL_PAUSE_TOLERANCE + MIN_TRIP_END_EVENTS := by
  decide

/-- C1 (amended): for a machine in IN_TRIP with zeroed still/pause counters
fed only qualifying STILL events (confidence ≥ 60, no intervening movement):
while the cumulative STILL count is at most the pause tolerance 4 — indeed up
to 5 — no state transition occurs and nothing is emitted; the IN_TRIP → ENDED
transition occurs once the cumulative STILL count reaches
`MIN_TRIP_END_EVENTS` = 6 (not 4 + N_end = 10 as the claim stated). -/
theorem c1_amended_still_threshold (m : TripStateMachine) (es : List ActivityEvent)
    (hst : m.currentState = .IN_TRIP) (h1 : m.consecutiveStillEvents = 0)
    (h2 : m.pauseStillCount = 0) (hq : ∀ e ∈ es, StillQ e) :
    (es.length ≤ 5 →
      (runEvents m es).1.currentState = .IN_TRIP ∧ (runEvents m es).2 = []) ∧
    (es.length = 6 → (runEvents m es).1.currentState = .ENDED) := by
  constructor
  · intro hlen
    obtain ⟨ha, _, _, hd⟩ := stillRun_state es m 0 hst h1 h2 hq (by omega)
    exact ⟨ha, hd⟩
  · intro hlen
    have hlen5 : (es.take 5).length = 5 := by simp [hlen]
    have hlend : (es.drop 5).length = 1 := by simp [hlen]
    obtain ⟨e, he⟩ := List.length_eq_one.mp hlend
    obtain ⟨ha, hb, hc, _⟩ := stillRun_state (es.take 5) m 0 hst h1 h2
      (fun x hx => hq x (List.take_subset 5 es hx)) (by omega)
    conv_lhs => rw [← List.take_append_drop 5 es]
    rw [runEvents_append, he]
    have hstep := handleInTripState_still_end (runEvents m (es.take 5)).1 e
      (hq e (List.drop_subset 5 es (he ▸ List.mem_singleton_self e)))
      (by rw [hb, hlen5]) (by rw [hc, hlen5])
    simp only [runEvents, processActivity, ha, hstep]

/-- C5: every emitted trip's `distanceKm` is the duration in hours times the
dominant mode's estimated speed, rounded half-up to two decimals; the speed
table is walking 5, running 10, cycling 15, vehicle 40 km/h; a 6-minute
dominant-cycling trip therefore carries distance `roundTo2 (6/60 × 15)` =
1.5 km, as the end-to-end run producing such a trip shows. -/
theorem c5_distance_formula (m : TripStateMachine) (trip : DetectedTrip)
    (h : (finalizeTrip m).2 = some trip) :
    trip.distanceKm =
      roundTo2 ((trip.durationMinutes : ℚ) / 60 *
        (findDominantActivity m.tripActivities).getEstimatedSpeedKmh) ∧
    DetectedActivityType.WALKING.getEstimatedSpeedKmh = 5 ∧
    DetectedActivityType.RUNNING.getEstimatedSpeedKmh = 10 ∧
    DetectedActivityType.ON_BICYCLE.getEstimatedSpeedKmh = 15 ∧
    DetectedActivityType.IN_VEHICLE.getEstimatedSpeedKmh = 40 ∧
    roundTo2 ((6 : ℚ) / 60 * DetectedActivityType.ON_BICYCLE.getEstimatedSpeedKmh) = 3 / 2 ∧
    ((runEvents initialMachine
        [⟨.ON_BICYCLE, 80, 0⟩, ⟨.ON_BICYCLE, 80, 30000⟩, ⟨.ON_BICYCLE, 80, 60000⟩,
          ⟨.ON_BICYCLE, 80, 90000⟩, ⟨.STILL, 90, 360000⟩, ⟨.STILL, 90, 390000⟩,
          ⟨.STILL, 90, 420000⟩, ⟨.STILL, 90, 450000⟩, ⟨.STILL, 90, 480000⟩,
          ⟨.STILL, 90, 510000⟩, ⟨.WALKING, 80, 600000⟩]).2.map
      (fun t => (t.durationMinutes, t.transportType))) = [(6, "velo")] := by
  refine ⟨?_, rfl, rfl, rfl, rfl, by norm_num [roundTo2, DetectedActivityType.getEstimatedSpeedKmh],
    by decide⟩
  unfold finalizeTrip at h
  split at h
  · simp at h
  · dsimp only at h
    split at h
    · simp at h
    · simp only [Option.some_inj] at h
      subst h
      rfl

/-- C7: the replay loop makes at most 3 attempts, attempt n sleeping
n × 500 ms before polling availability; on the first available attempt it
delivers the whole buffer strictly in enqueue (FIFO) order and clears it; if
all 3 attempts fail, it drops all buffered events, reporting their count. -/
theorem c7_replay_loop (avail : Nat → Bool) (buf : List BufferedEvent) (hne : buf ≠ []) :
    (∀ n, 1 ≤ n → n ≤ MAX_RETRY_ATTEMPTS →
      (∀ k, 1 ≤ k → k < n → avail k = false) → avail n = true →
      replayBufferedEvents avail buf =
        { delivered := buf, buffer := [], droppedCount := 0,
          waitsMs := (List.range n).map (fun i => RETRY_DELAY_MS * (i + 1)) }) ∧
    ((∀ k, 1 ≤ k → k ≤ MAX_RETRY_ATTEMPTS → avail k = false) →
      replayBufferedEvents avail buf =
        { delivered := [], buffer := [], droppedCount := buf.length,
          waitsMs := [RETRY_DELAY_MS * 1, RETRY_DELAY_MS * 2, RETRY_DELAY_MS * 3] }) := by
  constructor
  · intro n hn1 hn3 hprev hn
    unfold replayBufferedEvents
    rw [if_neg hne]
    simp only [MAX_RETRY_ATTEMPTS] at hn3
    interval_cases n
    · simp [replayGo, MAX_RETRY_ATTEMPTS, hn, List.range_succ]
    · have hp1 : avail 1 = false := hprev 1 (by omega) (by omega)
      simp [replayGo, MAX_RETRY_ATTEMPTS, hn, hp1, List.range_succ]
    · have hp1 : avail 1 = false := hprev 1 (by omega) (by omega)
      have hp2 : avail 2 = false := hprev 2 (by omega) (by omega)
      simp [replayGo, MAX_RETRY_ATTEMPTS, hn, hp1, hp2, List.range_succ]
  · intro hall
    have hp1 : avail 1 = false := hall 1 (by omega) (by norm_num [MAX_RETRY_ATTEMPTS])
    have hp2 : avail 2 = false := hall 2 (by omega) (by norm_num [MAX_RETRY_ATTEMPTS])
    have hp3 : avail 3 = false := hall 3 (by omega) (by norm_num [MAX_RETRY_ATTEMPTS])
    unfold replayBufferedEvents
    rw [if_neg hne]
    simp [replayGo, MAX_RETRY_ATTEMPTS, hp1, hp2, hp3]

/-- Splitting a prefix: `take (m + n)` is `take m` followed by `take n` of the
remainder. -/
theorem take_add_split {α : Type*} (l : List α) (m n : Nat) :
    l.take (m + n) = l.take m ++ (l.drop m).take n := by
  rw [List.take_drop]
  have h : (l.take (m + n)).take m = l.take m := by
    rw [List.take_take]
    congr 1
    omega
  rw [← h]
  exact (List.take_append_drop m (l.take (m + n))).symm

/-- C2: from a fresh IDLE machine, any run of at least 4 qualifying events
(moving type, confidence ≥ 60) leaves the machine IDLE through the first 3
events and IN_TRIP from the 4th event on — so the IDLE → IN_TRIP transition
fires exactly once, on the 4th event — and from the 4th event on the recorded
trip-start timestamp is the timestamp of the first event of the run, not the
time of the transition. -/
theorem c2_trip_start_backdated (m : TripStateMachine) (e₀ : ActivityEvent)
    (rest : List ActivityEvent) (hst : m.currentState = .IDLE)
    (hc : m.consecutiveMovingEvents = 0) (hb : m.recentMovingEvents = [])
    (hq : ∀ e ∈ e₀ :: rest, Qualifying e) (hlen : 3 ≤ rest.length) :
    (∀ k, k ≤ 3 → (runEvents m ((e₀ :: rest).take k)).1.currentState = .IDLE) ∧
    (∀ k, 4 ≤ k → k ≤ rest.length + 1 →
      (runEvents m ((e₀ :: rest).take k)).1.currentState = .IN_TRIP ∧
      (runEvents m ((e₀ :: rest).take k)).1.tripStartTime = e₀.timestamp) := by
  have hlen_es : (e₀ :: rest).length = rest.length + 1 := by simp
  constructor
  · intro k hk
    have hsub : ∀ e ∈ (e₀ :: rest).take k, Qualifying e :=
      fun e he => hq e (List.take_subset k _ he)
    have hlt : ((e₀ :: rest).take k).length ≤ 3 := by
      rw [List.length_take]
      omega
    exact (idleRun _ m 0 hst hc (by simp [hb]) hsub (by omega)).1
  · -- the machine after the first 3 events
    have h3sub : ∀ e ∈ (e₀ :: rest).take 3, Qualifying e :=
      fun e he => hq e (List.take_subset 3 _ he)
    have h3len : ((e₀ :: rest).take 3).length = 3 := by
      rw [List.length_take]
      omega
    obtain ⟨ha3, hb3, hc3, _⟩ := idleRun ((e₀ :: rest).take 3) m 0 hst hc (by simp [hb])
      h3sub (by omega)
    -- the 4th event
    have hd3len : 0 < ((e₀ :: rest).drop 3).length := by
      rw [List.length_drop]
      omega
    obtain ⟨e₃, t₃, he₃⟩ := List.exists_cons_of_ne_nil (List.length_pos.mp hd3len)
    have hq3 : Qualifying e₃ :=
      hq e₃ (List.drop_subset 3 _ (he₃ ▸ List.mem_cons_self e₃ t₃))
    have htk2 : (rest.take 2).length ≤ 2 := by
      rw [List.length_take]
      omega
    have hstart := handleIdleState_start (runEvents m ((e₀ :: rest).take 3)).1 e₃ e₀
      (rest.take 2) hq3 (by rw [hb3, h3len]) (by rw [hc3, hb]; simp) htk2
    -- the machine after the first 4 events
    have h4eq : (e₀ :: rest).take 4 = (e₀ :: rest).take 3 ++ [e₃] := by
      have := take_add_split (e₀ :: rest) 3 1
      rw [he₃] at this
      simpa using this
    have hrun4 : (runEvents m ((e₀ :: rest).take 4)).1 = handleIdleState
        (runEvents m ((e₀ :: rest).take 3)).1 e₃ := by
      rw [h4eq, runEvents_append, runEvents_cons, processActivity_idle _ _ ha3]
      try rfl
    intro k hk4 hkle
    have hksplit : (e₀ :: rest).take k = (e₀ :: rest).take 4 ++
        ((e₀ :: rest).drop 4).take (k - 4) := by
      conv_lhs => rw [show k = 4 + (k - 4) by omega]
      exact take_add_split _ 4 (k - 4)
    have hqd : ∀ e ∈ ((e₀ :: rest).drop 4).take (k - 4), isMovingActivity e = true :=
      fun e he => (hq e (List.drop_subset 4 _ (List.take_subset (k - 4) _ he))).1
    have hM4 : (runEvents m ((e₀ :: rest).take 4)).1.currentState = .IN_TRIP := by
      rw [hrun4, hstart]
    obtain ⟨hA, hB, _, _⟩ := inTripMovingRun (((e₀ :: rest).drop 4).take (k - 4))
      (runEvents m ((e₀ :: rest).take 4)).1 hM4 hqd
    rw [hksplit, runEvents_append]
    refine ⟨hA, ?_⟩
    rw [hB, hrun4, hstart]

/-- C3: (i) a terminating run of 6 qualifying STILL events from IN_TRIP with
cleared counters ends the trip with `tripEndTime` backdated to the timestamp
of the run's first STILL event; (ii) the first-STILL timestamp is cleared by
any intervening moving event; (iii) at finalization the recorded end time is
emitted as `timeArrival`. -/
theorem c3_trip_end_backdated (m : TripStateMachine) (e₀ : ActivityEvent)
    (rest : List ActivityEvent) (hst : m.currentState = .IN_TRIP)
    (h1 : m.consecutiveStillEvents = 0) (h2 : m.pauseStillCount = 0)
    (h3 : m.firstStillTimestamp = 0) (hq : ∀ e ∈ e₀ :: rest, StillQ e)
    (hlen : rest.length = 5) (ht : 0 < e₀.timestamp) :
    ((runEvents m (e₀ :: rest)).1.currentState = .ENDED ∧
      (runEvents m (e₀ :: rest)).1.tripEndTime = e₀.timestamp) ∧
    (∀ e, isMovingActivity e = true →
      (handleInTripState m e).firstStillTimestamp = 0) ∧
    (∀ mm trip, (finalizeTrip mm).2 = some trip → trip.timeArrival = mm.tripEndTime) := by
  refine ⟨?_, ?_, ?_⟩
  · -- the first STILL records its timestamp
    have hstep := handleInTripState_still m e₀ (hq e₀ (List.mem_cons_self e₀ rest)) h1 h2
      (by omega)
    rw [h3, if_pos rfl] at hstep
    -- the next 4 STILLs keep it
    have h4sub : ∀ e ∈ rest.take 4, StillQ e :=
      fun e he => hq e (List.mem_cons_of_mem e₀ (List.take_subset 4 rest he))
    have h4len : (rest.take 4).length = 4 := by
      rw [List.length_take]
      omega
    obtain ⟨ka, kb, kc, kd⟩ := stillRun_keep (rest.take 4) (handleInTripState m e₀) 1
      (by rw [hstep]; exact hst) (by rw [hstep]) (by rw [hstep])
      h4sub (by omega) (by rw [hstep]; dsimp only; omega)
    -- the 6th STILL ends the trip
    have hd4len : (rest.drop 4).length = 1 := by
      rw [List.length_drop]
      omega
    obtain ⟨e₅, he₅⟩ := List.length_eq_one.mp hd4len
    have hq5 : StillQ e₅ :=
      hq e₅ (List.mem_cons_of_mem e₀ (List.drop_subset 4 rest (he₅ ▸ List.mem_singleton_self e₅)))
    have hfst : (runEvents (handleInTripState m e₀) (rest.take 4)).1.firstStillTimestamp =
        e₀.timestamp := by
      rw [kd, hstep]
    have hend := handleInTripState_still_end
      (runEvents (handleInTripState m e₀) (rest.take 4)).1 e₅ hq5
      (by rw [kb, h4len]) (by rw [kc, h4len])
    rw [hfst, if_neg (show ¬ e₀.timestamp = 0 by omega), if_pos ht] at hend
    have hsplit : e₀ :: rest = (e₀ :: rest.take 4) ++ [e₅] := by
      conv_lhs => rw [← List.take_append_drop 4 rest]
      rw [he₅]
      rfl
    have hfirst : (runEvents m (e₀ :: rest.take 4)).1 =
        (runEvents (handleInTripState m e₀) (rest.take 4)).1 := by
      rw [runEvents_cons, processActivity_inTrip _ _ hst]
    have hlast : (runEvents (runEvents (handleInTripState m e₀) (rest.take 4)).1 [e₅]).1 =
        handleInTripState (runEvents (handleInTripState m e₀) (rest.take 4)).1 e₅ := by
      rw [runEvents_cons, processActivity_inTrip _ _ ka]
      rfl
    rw [hsplit, runEvents_append, hfirst, hlast, hend]
    exact ⟨rfl, rfl⟩
  · intro e hm
    rw [handleInTripState_moving m e hm]
  · intro mm trip htrip
    unfold finalizeTrip at htrip
    split at htrip
    · simp at htrip
    · dsimp only at htrip
      split at htrip
      · simp at htrip
      · simp only [Option.some_inj] at htrip
        subst htrip
        rfl

/-- C9: when the event that triggers ENDED → IDLE itself qualifies, the
consecutive-moving counter is seeded to 1 but the event enters neither the
lookback buffer nor the new trip-activity log; three further qualifying
events then start a trip whose backdated start timestamp is the timestamp of
the run's second event, and whose activity log omits the run's first event. -/
theorem c9_ended_reseed_gap (m : TripStateMachine) (e₁ e₂ e₃ e₄ : ActivityEvent)
    (hst : m.currentState = .ENDED) (hq₁ : Qualifying e₁) (hq₂ : Qualifying e₂)
    (hq₃ : Qualifying e₃) (hq₄ : Qualifying e₄) :
    (processActivity m e₁).1.currentState = .IDLE ∧
    (processActivity m e₁).1.consecutiveMovingEvents = 1 ∧
    (processActivity m e₁).1.recentMovingEvents = [] ∧
    (processActivity m e₁).1.tripActivities = [] ∧
    (runEvents (processActivity m e₁).1 [e₂, e₃, e₄]).1.currentState = .IN_TRIP ∧
    (runEvents (processActivity m e₁).1 [e₂, e₃, e₄]).1.tripStartTime = e₂.timestamp ∧
    (runEvents (processActivity m e₁).1 [e₂, e₃, e₄]).1.tripActivities = [e₂, e₃, e₄] := by
  have hq₁' : isMovingActivity e₁ = true ∧ MIN_CONFIDENCE ≤ e₁.confidence := hq₁
  have hm1 : (processActivity m e₁).1 =
      { resetState m with
        currentState := .IDLE
        consecutiveMovingEvents := 1 } := by
    simp only [processActivity, hst, handleEndedState]
    rw [finalizeTrip_fst m, if_pos hq₁']
  refine ⟨by rw [hm1], by rw [hm1], by rw [hm1]; rfl, by rw [hm1]; rfl, ?_⟩
  -- two qualifying events below the threshold, then the starting one
  have hs2 := handleIdleState_qual (processActivity m e₁).1 e₂ hq₂
    (by rw [hm1]; norm_num) (by rw [hm1]; simp [resetState])
  have h2 : handleIdleState (processActivity m e₁).1 e₂ =
      { resetState m with
        currentState := .IDLE
        consecutiveMovingEvents := 2
        recentMovingEvents := [e₂] } := by
    rw [hs2, hm1]
    rfl
  have hs3 := handleIdleState_qual (handleIdleState (processActivity m e₁).1 e₂) e₃ hq₃
    (by rw [h2]; norm_num) (by rw [h2]; simp)
  have h3 : handleIdleState (handleIdleState (processActivity m e₁).1 e₂) e₃ =
      { resetState m with
        currentState := .IDLE
        consecutiveMovingEvents := 3
        recentMovingEvents := [e₂, e₃] } := by
    rw [hs3, h2]
    rfl
  have hs4 := handleIdleState_start
    (handleIdleState (handleIdleState (processActivity m e₁).1 e₂) e₃) e₄ e₂ [e₃] hq₄
    (by rw [h3]) (by rw [h3]) (by simp)
  have i1 : (processActivity m e₁).1.currentState = .IDLE := by rw [hm1]
  have i2 : (handleIdleState (processActivity m e₁).1 e₂).currentState = .IDLE := by rw [h2]
  have i3 : (handleIdleState (handleIdleState (processActivity m e₁).1 e₂) e₃).currentState =
      .IDLE := by rw [h3]
  have hrun : (runEvents (processActivity m e₁).1 [e₂, e₃, e₄]).1 =
      handleIdleState (handleIdleState (handleIdleState (processActivity m e₁).1 e₂) e₃) e₄ := by
    rw [runEvents_cons, processActivity_idle _ _ i1]
    dsimp only
    rw [runEvents_cons, processActivity_idle _ _ i2]
    dsimp only
    rw [runEvents_cons, processActivity_idle _ _ i3]
    rfl
  rw [hrun, hs4]
  exact ⟨rfl, rfl, rfl⟩

/-- Witness for the amended C1: a concrete IN_TRIP machine stays IN_TRIP on 5
qualifying STILL events and is ENDED on the 6th. -/
theorem c1_amended_witness :
    (runEvents exampleInTripMachine
      [⟨.STILL, 90, 2000⟩, ⟨.STILL, 90, 3000⟩, ⟨.STILL, 90, 4000⟩, ⟨.STILL, 90, 5000⟩,
        ⟨.STILL, 90, 6000⟩]).1.currentState = .IN_TRIP ∧
    (runEvents exampleInTripMachine
      [⟨.STILL, 90, 2000⟩, ⟨.STILL, 90, 3000⟩, ⟨.STILL, 90, 4000⟩, ⟨.STILL, 90, 5000⟩,
        ⟨.STILL, 90, 6000⟩, ⟨.STILL, 90, 7000⟩]).1.currentState = .ENDED :=
  ⟨((c1_amended_still_threshold exampleInTripMachine _ rfl rfl rfl (by decide)).1
      (by decide)).1,
    (c1_amended_still_threshold exampleInTripMachine _ rfl rfl rfl (by decide)).2 (by decide)⟩

/-- Witness for C2: a concrete 4-event qualifying run from the initial
machine is IDLE after 3 events and IN_TRIP after 4ic events, with the trip
start backdated to the first event's timestamp 1000. -/
theorem c2_witness :
    (runEvents initialMachine
      ((⟨.WALKING, 80, 1000⟩ :: [⟨.WALKING, 80, 31000⟩, ⟨.RUNNING, 70, 61000⟩,
        ⟨.WALKING, 85, 91000⟩]).take 3)).1.currentState = .IDLE ∧
    (runEvents initialMachine
      ((⟨.WALKING, 80, 1000⟩ :: [⟨.WALKING, 80, 31000⟩, ⟨.RUNNING, 70, 61000⟩,
        ⟨.WALKING, 85, 91000⟩]).take 4)).1.currentState = .IN_TRIP ∧
    (runEvents initialMachine
      ((⟨.WALKING, 80, 1000⟩ :: [⟨.WALKING, 80, 31000⟩, ⟨.RUNNING, 70, 61000⟩,
        ⟨.WALKING, 85, 91000⟩]).take 4)).1.tripStartTime = 1000 := by
  have h := c2_trip_start_backdated initialMachine ⟨.WALKING, 80, 1000⟩
    [⟨.WALKING, 80, 31000⟩, ⟨.RUNNING, 70, 61000⟩, ⟨.WALKING, 85, 91000⟩]
    rfl rfl rfl (by decide) (by decide)
  exact ⟨h.1 3 (by omega), (h.2 4 (by omega) (by decide)).1, (h.2 4 (by omega) (by decide)).2⟩

/-- Witness for C3: a concrete terminating run of 6 qualifying STILL events
ends the trip with the end time backdated to the first STILL's timestamp. -/
theorem c3_witness :
    (runEvents exampleInTripMachine
      (⟨.STILL, 95, 7777⟩ :: [⟨.STILL, 90, 8000⟩, ⟨.STILL, 90, 9000⟩, ⟨.STILL, 90, 10000⟩,
        ⟨.STILL, 90, 11000⟩, ⟨.STILL, 90, 12000⟩])).1.currentState = .ENDED ∧
    (runEvents exampleInTripMachine
      (⟨.STILL, 95, 7777⟩ :: [⟨.STILL, 90, 8000⟩, ⟨.STILL, 90, 9000⟩, ⟨.STILL, 90, 10000⟩,
        ⟨.STILL, 90, 11000⟩, ⟨.STILL, 90, 12000⟩])).1.tripEndTime = 7777 :=
  (c3_trip_end_backdated exampleInTripMachine ⟨.STILL, 95, 7777⟩
    [⟨.STILL, 90, 8000⟩, ⟨.STILL, 90, 9000⟩, ⟨.STILL, 90, 10000⟩, ⟨.STILL, 90, 11000⟩,
      ⟨.STILL, 90, 12000⟩] rfl rfl rfl rfl (by decide) (by decide) (by decide)).1

/-- Witness for C4: finalization discards a concrete empty-log machine and a
concrete sub-2-minute machine, and the trip emitted for a concrete 6-minute
machine satisfies both bounds. -/
theorem c4_witness :
    (finalizeTrip exampleEmptyEndedMachine).2 = none ∧
    (finalizeTrip exampleShortEndedMachine).2 = none ∧
    2 ≤ exampleTrip.durationMinutes ∧
    exampleTrip.timeDeparture < exampleTrip.timeArrival :=
  ⟨(c4_finalize_guards exampleEmptyEndedMachine).2.1 rfl,
    (c4_finalize_guards exampleShortEndedMachine).2.2.1 (by decide),
    ((c4_finalize_guards exampleEndedMachine).2.2.2 exampleTrip rfl).1,
    ((c4_finalize_guards exampleEndedMachine).2.2.2 exampleTrip rfl).2⟩

/-- Witness for C5: the concrete 6-minute walking trip emitted by
`finalizeTrip` carries the rounded duration-times-speed distance. -/
theorem c5_witness :
    (finalizeTrip exampleEndedMachine).2 = some exampleTrip ∧
    exampleTrip.distanceKm =
      roundTo2 ((exampleTrip.durationMinutes : ℚ) / 60 *
        (findDominantActivity exampleEndedMachine.tripActivities).getEstimatedSpeedKmh) :=
  ⟨rfl, (c5_distance_formula exampleEndedMachine exampleTrip rfl).1⟩

/-- Witness for C7: with a service that becomes available on attempt 2, one
buffered event is delivered after sleeps of 500 and 1000 ms; with a service
that never becomes available, both buffered events are dropped after three
sleeps. -/
theorem c7_witness :
    replayBufferedEvents (fun n => decide (n = 2)) [⟨3, 50, 0⟩] =
      { delivered := [⟨3, 50, 0⟩], buffer := [], droppedCount := 0,
        waitsMs := [500, 1000] } ∧
    replayBufferedEvents (fun _ => false) [⟨3, 50, 0⟩, ⟨7, 60, 1⟩] =
      { delivered := [], buffer := [], droppedCount := 2,
        waitsMs := [500, 1000, 1500] } :=
  ⟨(c7_replay_loop (fun n => decide (n = 2)) [⟨3, 50, 0⟩] (by decide)).1 2 (by omega)
      (by decide) (fun k hk1 hk2 => by interval_cases k; rfl) (by decide),
    (c7_replay_loop (fun _ => false) [⟨3, 50, 0⟩, ⟨7, 60, 1⟩] (by decide)).2
      (fun k hk1 hk3 => rfl)⟩

/-- Witness for C9: from a concrete ENDED machine, the ENDED → IDLE trigger
seeds the counter to 1 without being buffered, and three further qualifying
events start a trip backdated to the second event of the run. -/
theorem c9_witness :
    (processActivity exampleEndedMachine ⟨.WALKING, 80, 400000⟩).1.currentState = .IDLE ∧
    (processActivity exampleEndedMachine ⟨.WALKING, 80, 400000⟩).1.consecutiveMovingEvents = 1 ∧
    (processActivity exampleEndedMachine ⟨.WALKING, 80, 400000⟩).1.recentMovingEvents = [] ∧
    (runEvents (processActivity exampleEndedMachine ⟨.WALKING, 80, 400000⟩).1
      [⟨.WALKING, 80, 430000⟩, ⟨.WALKING, 80, 460000⟩, ⟨.WALKING, 80, 490000⟩]).1.currentState =
      .IN_TRIP ∧
    (runEvents (processActivity exampleEndedMachine ⟨.WALKING, 80, 400000⟩).1
      [⟨.WALKING, 80, 430000⟩, ⟨.WALKING, 80, 460000⟩, ⟨.WALKING, 80, 490000⟩]).1.tripStartTime =
      430000 ∧
    (runEvents (processActivity exampleEndedMachine ⟨.WALKING, 80, 400000⟩).1
      [⟨.WALKING, 80, 430000⟩, ⟨.WALKING, 80, 460000⟩, ⟨.WALKING, 80, 490000⟩]).1.tripActivities =
      [⟨.WALKING, 80, 430000⟩, ⟨.WALKING, 80, 460000⟩, ⟨.WALKING, 80, 490000⟩] := by
  have h := c9_ended_reseed_gap exampleEndedMachine ⟨.WALKING, 80, 400000⟩
    ⟨.WALKING, 80, 430000⟩ ⟨.WALKING, 80, 460000⟩ ⟨.WALKING, 80, 490000⟩
    rfl (by decide) (by decide) (by decide) (by decide)
  exact ⟨h.1, h.2.1, h.2.2.1, h.2.2.2.2.1, h.2.2.2.2.2.1, h.2.2.2.2.2.2⟩

/-- Witness for C10: a moving event at confidence 10 — far below the
threshold — keeps a concrete trip IN_TRIP and enters the dominant-mode tally
and the confidence sum. -/
theorem c10_witness :
    (processActivity exampleInTripMachine ⟨.ON_BICYCLE, 10, 99⟩).1.currentState = .IN_TRIP ∧
    movingCount (exampleInTripMachine.tripActivities ++ [⟨.ON_BICYCLE, 10, 99⟩])
      DetectedActivityType.ON_BICYCLE =
      movingCount exampleInTripMachine.tripActivities DetectedActivityType.ON_BICYCLE + 1 ∧
    ((exampleInTripMachine.tripActivities ++ [(⟨.ON_BICYCLE, 10, 99⟩ : ActivityEvent)]).map
      (fun x : ActivityEvent => x.confidence)).sum =
      (exampleInTripMachine.tripActivities.map
        (fun x : ActivityEvent => x.confidence)).sum + 10 := by
  have h := c10_low_confidence_movement exampleInTripMachine ⟨.ON_BICYCLE, 10, 99⟩ rfl rfl
  exact ⟨h.2.1, h.2.2.1, h.2.2.2⟩

end GreenMobilityPass
